import Mathlib

/-!
Shallow embedding of the open-reid training scripts
`examples/softmax_loss.py` and `examples/softmax_loss_joint.py`.

Dataset samples are the (image path, identity label, camera id) tuples the
dataset registry produces.  Loader configurations record exactly the
arguments the scripts pass to the generic data-loading primitive.  The
training loop is embedded as a fold over the epoch list that threads the
model weights and the running best validation score and records an event
trace (learning-rate adjustment, one epoch of training, validation,
checkpoint saving, checkpoint loading, query/gallery evaluation).
Floating-point scores are modelled by rationals.
-/

namespace OpenReid

/-- A dataset tuple `(fname, pid, camid)`: image path, identity label,
camera id. -/
structure Sample where
  fname : String
  pid : Nat
  camid : Nat
deriving DecidableEq

/-- A dataset as produced by the dataset registry: train/val/trainval
splits, query and gallery test sets, the class counts, and the image
directory. -/
structure Dataset where
  train : List Sample
  val : List Sample
  trainval : List Sample
  query : List Sample
  gallery : List Sample
  num_train_ids : Nat
  num_trainval_ids : Nat
  images_dir : String
deriving DecidableEq

/-- Offset the identity label of a sample by `k`. -/
def shiftSample (k : Nat) (s : Sample) : Sample :=
  { s with pid := s.pid + k }

/-- Modelled from the spec: `datasets.create` (the dataset registry,
`reid/datasets`, not under `src/`) "maps a name string to a dataset loader
that reads an image-identity-camera index from disk and partitions it into
train/val/test splits, producing tuples of (image path, identity label,
camera id)".  The `start_idx` argument offsets the identity labels of the
relabeled training-side splits (train, val, trainval) by `start_idx`;
query and gallery keep their original labels and the class counts are
unchanged.  The dataset read from disk is the `raw` argument. -/
def createDataset (raw : Dataset) (start_idx : Nat) : Dataset :=
  { raw with
    train := raw.train.map (shiftSample start_idx)
    val := raw.val.map (shiftSample start_idx)
    trainval := raw.trainval.map (shiftSample start_idx) }

/-- `dataset.trainval if combine_trainval else dataset.train`. -/
def trainSetOf (d : Dataset) (combine_trainval : Bool) : List Sample :=
  if combine_trainval then d.trainval else d.train

/-- `dataset.num_trainval_ids if combine_trainval else dataset.num_train_ids`. -/
def numClassesOf (d : Dataset) (combine_trainval : Bool) : Nat :=
  if combine_trainval then d.num_trainval_ids else d.num_train_ids

/-- A dataset is well formed when every training-side identity label is
below the corresponding class count. -/
def Dataset.Wf (d : Dataset) : Prop :=
  (∀ s ∈ d.train, s.pid < d.num_train_ids) ∧
    (∀ s ∈ d.trainval, s.pid < d.num_trainval_ids)

/-- Python `list(set(a) | set(b))`: the deduplicated union of two lists
(element order in Python is unspecified; we keep first occurrences). -/
def dedupUnion (a b : List Sample) : List Sample :=
  (a ++ b).dedup

/-- The configuration of one `DataLoader` call: the preprocessed sample
list, the root directory, and the keyword arguments the scripts pass.
`sampler` records the `RandomMultipleGallerySampler(train_set,
num_instances)` arguments when one is used.  `shuffle` and `drop_last`
default to `false` as in the data-loading primitive. -/
structure LoaderCfg where
  dset : List Sample
  root : String
  batch_size : Nat
  num_workers : Nat
  sampler : Option (List Sample × Nat) := none
  shuffle : Bool := false
  pin_memory : Bool := true
  drop_last : Bool := false
deriving DecidableEq

/-- What `get_data` in `examples/softmax_loss.py` returns: the dataset,
the class count and the three loader configurations. -/
structure SingleData where
  dataset : Dataset
  num_classes : Nat
  train_loader : LoaderCfg
  val_loader : LoaderCfg
  test_loader : LoaderCfg

/-- `get_data` of `examples/softmax_loss.py` (lines 27-78): builds the
train/val/test loader configurations for one dataset. -/
def get_data_single (raw : Dataset) (batch_size workers num_instances : Nat)
    (combine_trainval : Bool) : SingleData :=
  let dataset := createDataset raw 0
  let train_set := trainSetOf dataset combine_trainval
  let num_classes := numClassesOf dataset combine_trainval
  let rmgs_flag := decide (0 < num_instances)
  let sampler_type := if rmgs_flag then some (train_set, num_instances) else none
  { dataset := dataset
    num_classes := num_classes
    train_loader :=
      { dset := train_set, root := dataset.images_dir,
        batch_size := batch_size, num_workers := workers,
        sampler := sampler_type, shuffle := !rmgs_flag, drop_last := true }
    val_loader :=
      { dset := dataset.val, root := dataset.images_dir,
        batch_size := batch_size, num_workers := workers, shuffle := false }
    test_loader :=
      { dset := dedupUnion dataset.query dataset.gallery,
        root := dataset.images_dir,
        batch_size := batch_size, num_workers := workers, shuffle := false } }

/-- What `get_data` in `examples/softmax_loss_joint.py` returns. -/
structure JointData where
  dataset_source : Dataset
  dataset_target : Dataset
  num_classes : Nat
  train_loader : LoaderCfg
  val_loader : LoaderCfg
  test_loader_source : LoaderCfg
  test_loader_target : LoaderCfg

/-- `get_data` of `examples/softmax_loss_joint.py` (lines 24-84): creates
the source dataset with `start_idx = 0`, the target dataset with
`start_idx = num_classes_source`, merges the training and validation sets
as deduplicated unions, and builds the loader configurations. -/
def get_data_joint (raw_source raw_target : Dataset) (data_dir : String)
    (batch_size workers num_instances : Nat) (combine_trainval : Bool) :
    JointData :=
  let dataset_source := createDataset raw_source 0
  let train_set_source := trainSetOf dataset_source combine_trainval
  let num_classes_source := numClassesOf dataset_source combine_trainval
  let dataset_target := createDataset raw_target num_classes_source
  let train_set_target := trainSetOf dataset_target combine_trainval
  let num_classes_target := numClassesOf dataset_target combine_trainval
  let train_set := dedupUnion train_set_source train_set_target
  let val_set := dedupUnion dataset_source.val dataset_target.val
  let rmgs_flag := decide (0 < num_instances)
  let sampler_type := if rmgs_flag then some (train_set, num_instances) else none
  { dataset_source := dataset_source
    dataset_target := dataset_target
    num_classes := num_classes_source + num_classes_target
    train_loader :=
      { dset := train_set, root := data_dir,
        batch_size := batch_size, num_workers := workers,
        sampler := sampler_type, shuffle := !rmgs_flag, drop_last := true }
    val_loader :=
      { dset := val_set, root := data_dir,
        batch_size := batch_size, num_workers := workers, shuffle := false }
    test_loader_source :=
      { dset := dedupUnion dataset_source.query dataset_source.gallery,
        root := dataset_source.images_dir,
        batch_size := batch_size, num_workers := workers, shuffle := false }
    test_loader_target :=
      { dset := dedupUnion dataset_target.query dataset_target.gallery,
        root := dataset_target.images_dir,
        batch_size := batch_size, num_workers := workers, shuffle := false } }

/-- Split a list into consecutive chunks of `n` elements; the final chunk
may be shorter.  This is how the data-loading primitive forms minibatches
from the (possibly sampler-reordered) sample sequence. -/
def chunksOf (n : Nat) (l : List α) : List (List α) :=
  if _h : n = 0 ∨ l.length = 0 then []
  else l.take n :: chunksOf n (l.drop n)
termination_by l.length
decreasing_by
  push_neg at _h
  simpa using Nat.sub_lt (Nat.pos_of_ne_zero _h.2) (Nat.pos_of_ne_zero _h.1)

/-- The minibatches a `DataLoader` yields over a sequence: consecutive
chunks of `batch_size`; with `drop_last` the incomplete final chunk is
discarded. -/
def dlBatches (batch_size : Nat) (drop_last : Bool) (l : List α) :
    List (List α) :=
  let cs := chunksOf batch_size l
  if drop_last then cs.filter (fun b => decide (b.length = batch_size)) else cs

/-- The minibatches a loader configuration yields. -/
def LoaderCfg.batches (cfg : LoaderCfg) : List (List Sample) :=
  dlBatches cfg.batch_size cfg.drop_last cfg.dset

/-- The identity label stored at index `i` of the sampler's underlying
sample list, if any. -/
def pidAt (data : List Sample) (i : Nat) : Option Nat :=
  (data.get? i).map Sample.pid

/-- Modelled from the spec: `RandomMultipleGallerySampler`
(`reid/utils/data/sampler.py`, not under `src/`).  Per the spec it is
"given a list of (identity, camera) tuples" and "produces index orderings
that batch multiple images per identity together", so that "each minibatch
consist of (batch_size // num_instances) identities, and each identity has
num_instances instances".  We model its output as the concatenation of
per-identity blocks: each block pairs an identity with the
`num_instances` indices chosen for it, and the random shuffling is
abstracted into the given block list. -/
def rmgsOrder (blocks : List (Nat × List Nat)) : List Nat :=
  (blocks.map Prod.snd).flatten

/-- Well-formedness of a block list for `rmgsOrder` over `data` with
`num_instances = n`: block identities are pairwise distinct, every block
holds exactly `n` indices, and each index points at a sample of the
block's identity. -/
def BlocksWf (data : List Sample) (n : Nat) (blocks : List (Nat × List Nat)) : Prop :=
  (blocks.map Prod.fst).Nodup ∧
    ∀ bl ∈ blocks, bl.2.length = n ∧ ∀ i ∈ bl.2, pidAt data i = some bl.1

/-- A training checkpoint record: `{'state_dict', 'epoch', 'best_mAP'}`
as saved by the scripts (model weights are abstracted to a `Nat`). -/
structure Ckpt where
  state_dict : Nat
  epoch : Nat
  best_mAP : ℚ
deriving DecidableEq

/-- One observable step of the scripts' main routine. -/
inductive Event where
  | adjustLR (epoch : Nat)
  | train (epoch : Nat)
  | validate (epoch : Nat)
  | saveCkpt (c : Ckpt) (is_best : Bool)
  | loadCkpt (path : String)
  | evalQG (query gallery : List Sample)
deriving DecidableEq

/-- The state threaded through the training loop: the model weights
(abstract), the running best validation mAP, and the event trace. -/
structure LoopState where
  w : Nat
  best_mAP : ℚ
  events : List Event
deriving DecidableEq

/-- The body of the training loop (`softmax_loss.py` lines 170-186,
`softmax_loss_joint.py` lines 183-199): adjust the learning rate, train
one epoch, and — unless `epoch < start_save` — validate, update
`best_mAP = max(mAP, best_mAP)`, and save a checkpoint holding the new
`best_mAP` and `epoch + 1`, marked best iff `mAP > best_mAP` held before
the update.  `step` abstracts the weight update of one training epoch and
`mAP` the validation score at each epoch. -/
def epochBody (step : Nat → Nat → Nat) (mAP : Nat → ℚ) (start_save : Nat)
    (s : LoopState) (epoch : Nat) : LoopState :=
  let w1 := step epoch s.w
  let evs1 := s.events ++ [.adjustLR epoch, .train epoch]
  if epoch < start_save then { s with w := w1, events := evs1 }
  else
    let m := mAP epoch
    let is_best := decide (s.best_mAP < m)
    let best := max m s.best_mAP
    { w := w1, best_mAP := best,
      events := evs1 ++ [.validate epoch, .saveCkpt ⟨w1, epoch + 1, best⟩ is_best] }

/-- The training loop run over a list of epochs. -/
def runLoop (step : Nat → Nat → Nat) (mAP : Nat → ℚ) (start_save : Nat)
    (es : List Nat) (s : LoopState) : LoopState :=
  es.foldl (epochBody step mAP start_save) s

/-- Python `range(start_epoch, epochs)`. -/
def epochRange (start_epoch epochs : Nat) : List Nat :=
  List.range' start_epoch (epochs - start_epoch)

/-- Checkpoint initialization (`softmax_loss.py` lines 25 and 116-122,
`softmax_loss_joint.py` lines 115-122): without `--resume` the weights are
the freshly created model's and `start_epoch = best_mAP = 0`; with
`--resume` the model state, `start_epoch` and `best_mAP` are taken from
the loaded checkpoint.  Returns `(weights, start_epoch, best_mAP)`. -/
def resumeInit (init_w : Nat) (resume : Option Ckpt) : Nat × Nat × ℚ :=
  match resume with
  | none => (init_w, 0, 0)
  | some c => (c.state_dict, c.epoch, c.best_mAP)

/-- The epochs at which an epoch of the loop validates and saves:
those with `¬ (epoch < start_save)`. -/
def savedEpochs (start_save : Nat) (es : List Nat) : List Nat :=
  es.filter (fun e => decide (start_save ≤ e))

/-- The running best as the loop computes it. -/
def runBest (mAP : Nat → ℚ) (start_save : Nat) : List Nat → ℚ → ℚ
  | [], b => b
  | e :: es, b =>
    if e < start_save then runBest mAP start_save es b
    else runBest mAP start_save es (max (mAP e) b)

/-- The weights after training over the epoch list. -/
def runW (step : Nat → Nat → Nat) (es : List Nat) (w : Nat) : Nat :=
  es.foldl (fun w e => step e w) w

/-- The event trace one run of the loop appends, as a function of the
epoch list and the incoming weights and best score. -/
def epochTrace (step : Nat → Nat → Nat) (mAP : Nat → ℚ) (start_save : Nat) :
    List Nat → Nat → ℚ → List Event
  | [], _, _ => []
  | e :: es, w, b =>
    let w1 := step e w
    if e < start_save then
      .adjustLR e :: .train e :: epochTrace step mAP start_save es w1 b
    else
      .adjustLR e :: .train e :: .validate e ::
        .saveCkpt ⟨w1, e + 1, max (mAP e) b⟩ (decide (b < mAP e)) ::
        epochTrace step mAP start_save es w1 (max (mAP e) b)

/-- The `(epoch, best_mAP, is_best)` triples of the checkpoints saved in a
trace, in order. -/
def savedTriples (evs : List Event) : List (Nat × ℚ × Bool) :=
  evs.filterMap (fun ev =>
    match ev with
    | .saveCkpt c ib => some (c.epoch, c.best_mAP, ib)
    | _ => none)

/-- The epochs trained in a trace, in order. -/
def trainedEpochs (evs : List Event) : List Nat :=
  evs.filterMap (fun ev =>
    match ev with
    | .train e => some e
    | _ => none)

/-- The checkpoint sequence the claim describes: for each validated epoch
`e` (in order), one checkpoint with stored epoch `e + 1` and stored best
`max (mAP e) b` where `b` is the best before `e`, marked best iff
`mAP e > b`. -/
def ckptSpec (mAP : Nat → ℚ) : List Nat → ℚ → List (Nat × ℚ × Bool)
  | [], _ => []
  | e :: es, b =>
    (e + 1, max (mAP e) b, decide (b < mAP e)) :: ckptSpec mAP es (max (mAP e) b)

/-- The trace of `main_worker` in `examples/softmax_loss.py` (lines
93-193), from model creation onwards.  With `--evaluate` it evaluates the
validation set against itself and the query set against the gallery and
returns; otherwise it runs the training loop over
`range(start_epoch, epochs)` and finally loads `model_best.pth.tar` from
the logs directory and evaluates the query set against the gallery.
Per the spec the evaluator "computes pairwise distances between query and
gallery embeddings, derives mAP and CMC metrics" (its code, `reid/
evaluators.py`, is not under `src/`), so every `evalQG` event derives CMC
curves. -/
def main_single (raw : Dataset) (batch_size workers num_instances : Nat)
    (combine_trainval : Bool) (evaluate : Bool) (logs_dir : String)
    (resume : Option Ckpt) (init_w : Nat) (step : Nat → Nat → Nat)
    (mAP : Nat → ℚ) (start_save epochs : Nat) : List Event :=
  let out := get_data_single raw batch_size workers num_instances combine_trainval
  let init := resumeInit init_w resume
  if evaluate then
    [.evalQG out.dataset.val out.dataset.val,
     .evalQG out.dataset.query out.dataset.gallery]
  else
    (runLoop step mAP start_save (epochRange init.2.1 epochs)
        ⟨init.1, init.2.2, []⟩).events ++
      [.loadCkpt (logs_dir ++ "/model_best.pth.tar"),
       .evalQG out.dataset.query out.dataset.gallery]

/-- The trace of `main` in `examples/softmax_loss_joint.py` (lines
86-211), from model creation onwards.  With `--evaluate` it evaluates the
source and target query sets against their galleries and returns;
otherwise it runs the training loop and finally loads
`model_best.pth.tar` from the logs directory and evaluates the source and
target query sets against their galleries. -/
def main_joint (raw_source raw_target : Dataset) (data_dir : String)
    (batch_size workers num_instances : Nat) (combine_trainval : Bool)
    (evaluate : Bool) (logs_dir : String) (resume : Option Ckpt)
    (init_w : Nat) (step : Nat → Nat → Nat) (mAP : Nat → ℚ)
    (start_save epochs : Nat) : List Event :=
  let out := get_data_joint raw_source raw_target data_dir batch_size workers
    num_instances combine_trainval
  let init := resumeInit init_w resume
  if evaluate then
    [.evalQG out.dataset_source.query out.dataset_source.gallery,
     .evalQG out.dataset_target.query out.dataset_target.gallery]
  else
    (runLoop step mAP start_save (epochRange init.2.1 epochs)
        ⟨init.1, init.2.2, []⟩).events ++
      [.loadCkpt (logs_dir ++ "/model_best.pth.tar"),
       .evalQG out.dataset_source.query out.dataset_source.gallery,
       .evalQG out.dataset_target.query out.dataset_target.gallery]

/-- One optimizer parameter group: its learning-rate multiplier and its
current learning rate. -/
structure ParamGroup where
  lr_mult : ℚ
  lr : ℚ
deriving DecidableEq

/-- The two parameter groups the scripts build (`softmax_loss.py` lines
149-151): the pretrained backbone with `lr_mult = 1.0` and the new
parameters with `lr_mult = 10.0`. -/
def param_groups : List ParamGroup :=
  [{ lr_mult := 1, lr := 0 }, { lr_mult := 10, lr := 0 }]

/-- `adjust_lr` (`softmax_loss.py` lines 163-167, `softmax_loss_joint.py`
lines 171-180): `lr = args.lr * 0.1 ** (epoch // step_size)` and each
group's rate is `lr * lr_mult` (`0.1` modelled as the rational `1/10`). -/
def adjust_lr (args_lr : ℚ) (step_size epoch : Nat) (gs : List ParamGroup) :
    List ParamGroup :=
  let lr := args_lr * (1 / 10 : ℚ) ^ (epoch / step_size)
  gs.map (fun g => { g with lr := lr * g.lr_mult })

/-- A small concrete dataset used to instantiate theorems. -/
def rawA : Dataset :=
  { train := [⟨"a0.jpg", 0, 0⟩, ⟨"a1.jpg", 1, 1⟩],
    val := [⟨"a2.jpg", 0, 0⟩],
    trainval := [⟨"a0.jpg", 0, 0⟩, ⟨"a1.jpg", 1, 1⟩, ⟨"a2.jpg", 2, 0⟩],
    query := [⟨"aq.jpg", 5, 0⟩],
    gallery := [⟨"aq.jpg", 5, 0⟩, ⟨"ag.jpg", 6, 1⟩],
    num_train_ids := 2, num_trainval_ids := 3, images_dir := "dataA" }

/-- A second small concrete dataset used to instantiate theorems. -/
def rawB : Dataset :=
  { train := [⟨"b0.jpg", 0, 0⟩],
    val := [⟨"b1.jpg", 0, 1⟩],
    trainval := [⟨"b0.jpg", 0, 0⟩, ⟨"b1.jpg", 1, 1⟩],
    query := [⟨"bq.jpg", 3, 0⟩],
    gallery := [⟨"bg.jpg", 3, 1⟩],
    num_train_ids := 1, num_trainval_ids := 2, images_dir := "dataB" }

/-- A small concrete sample list for instantiating sampler theorems:
eight images of four identities, two images each. -/
def sampData : List Sample :=
  [⟨"i0", 0, 0⟩, ⟨"i1", 0, 1⟩, ⟨"i2", 1, 0⟩, ⟨"i3", 1, 1⟩,
   ⟨"i4", 2, 0⟩, ⟨"i5", 2, 1⟩, ⟨"i6", 3, 0⟩, ⟨"i7", 3, 1⟩]

/-- Concrete per-identity blocks over `sampData` with two instances per
identity. -/
def sampBlocks : List (Nat × List Nat) :=
  [(0, [0, 1]), (1, [2, 3]), (2, [4, 5]), (3, [6, 7])]

theorem mem_dedupUnion (a b : List Sample) (x : Sample) :
    x ∈ dedupUnion a b ↔ x ∈ a ∨ x ∈ b := by
  simp [dedupUnion, List.mem_dedup]

theorem nodup_dedupUnion (a b : List Sample) : (dedupUnion a b).Nodup :=
  List.nodup_dedup _

theorem runLoop_eq (step : Nat → Nat → Nat) (mAP : Nat → ℚ) (ss : Nat)
    (es : List Nat) (s : LoopState) :
    runLoop step mAP ss es s =
      ⟨runW step es s.w, runBest mAP ss es s.best_mAP,
        s.events ++ epochTrace step mAP ss es s.w s.best_mAP⟩ := by
  induction es generalizing s with
  | nil => simp [runLoop, runW, runBest, epochTrace]
  | cons e es ih =>
    simp only [runLoop, List.foldl_cons] at ih ⊢
    rw [ih]
    by_cases h : e < ss
    · simp [epochBody, h, runW, runBest, epochTrace]
    · simp [epochBody, h, runW, runBest, epochTrace]

theorem savedTriples_append (a b : List Event) :
    savedTriples (a ++ b) = savedTriples a ++ savedTriples b := by
  simp [savedTriples]

theorem trainedEpochs_append (a b : List Event) :
    trainedEpochs (a ++ b) = trainedEpochs a ++ trainedEpochs b := by
  simp [trainedEpochs]

theorem savedTriples_epochTrace (step : Nat → Nat → Nat) (mAP : Nat → ℚ)
    (ss : Nat) (es : List Nat) (w : Nat) (b : ℚ) :
    savedTriples (epochTrace step mAP ss es w b) =
      ckptSpec mAP (savedEpochs ss es) b := by
  induction es generalizing w b with
  | nil => simp [epochTrace, savedEpochs, ckptSpec, savedTriples]
  | cons e es ih =>
    by_cases h : e < ss
    · have h2 : ¬ ss ≤ e := by omega
      simp [epochTrace, h, savedEpochs, h2, savedTriples, List.filterMap_cons] at ih ⊢
      exact ih _ _
    · have h2 : ss ≤ e := by omega
      simp [epochTrace, h, savedEpochs, h2, savedTriples, List.filterMap_cons,
        ckptSpec] at ih ⊢
      exact ih _ _

theorem trainedEpochs_epochTrace (step : Nat → Nat → Nat) (mAP : Nat → ℚ)
    (ss : Nat) (es : List Nat) (w : Nat) (b : ℚ) :
    trainedEpochs (epochTrace step mAP ss es w b) = es := by
  induction es generalizing w b with
  | nil => simp [epochTrace, trainedEpochs]
  | cons e es ih =>
    by_cases h : e < ss
    · simp [epochTrace, h, trainedEpochs, List.filterMap_cons] at ih ⊢
      exact ih _ _
    · simp [epochTrace, h, trainedEpochs, List.filterMap_cons] at ih ⊢
      exact ih _ _

theorem validate_mem_epochTrace (step : Nat → Nat → Nat) (mAP : Nat → ℚ)
    (ss : Nat) (es : List Nat) (w : Nat) (b : ℚ) (e : Nat)
    (hm : Event.validate e ∈ epochTrace step mAP ss es w b) :
    ss ≤ e ∧ e ∈ es := by
  induction es generalizing w b with
  | nil => simp [epochTrace] at hm
  | cons e0 es ih =>
    by_cases h : e0 < ss
    · simp [epochTrace, h] at hm
      rcases ih _ _ hm with ⟨h1, h2⟩
      exact ⟨h1, List.mem_cons_of_mem _ h2⟩
    · simp [epochTrace, h] at hm
      rcases hm with h1 | h1
      · subst h1
        exact ⟨by omega, List.mem_cons_self _ _⟩
      · rcases ih _ _ h1 with ⟨h1, h2⟩
        exact ⟨h1, List.mem_cons_of_mem _ h2⟩

theorem saveCkpt_mem_epochTrace (step : Nat → Nat → Nat) (mAP : Nat → ℚ)
    (ss : Nat) (es : List Nat) (w : Nat) (b : ℚ) (c : Ckpt) (ib : Bool)
    (hm : Event.saveCkpt c ib ∈ epochTrace step mAP ss es w b) :
    ∃ e ∈ es, ss ≤ e ∧ c.epoch = e + 1 := by
  induction es generalizing w b with
  | nil => simp [epochTrace] at hm
  | cons e0 es ih =>
    by_cases h : e0 < ss
    · simp [epochTrace, h] at hm
      rcases ih _ _ hm with ⟨e, h1, h2⟩
      exact ⟨e, List.mem_cons_of_mem _ h1, h2⟩
    · simp [epochTrace, h] at hm
      rcases hm with ⟨h1, _⟩ | h1
      · exact ⟨e0, List.mem_cons_self _ _, by omega, by rw [h1]⟩
      · rcases ih _ _ h1 with ⟨e, h1, h2⟩
        exact ⟨e, List.mem_cons_of_mem _ h1, h2⟩

theorem runBest_eq_foldl (mAP : Nat → ℚ) (ss : Nat) (es : List Nat) (b : ℚ) :
    runBest mAP ss es b =
      (savedEpochs ss es).foldl (fun b e => max b (mAP e)) b := by
  induction es generalizing b with
  | nil => simp [runBest, savedEpochs]
  | cons e es ih =>
    by_cases h : e < ss
    · have h2 : ¬ ss ≤ e := by omega
      simp [runBest, h, savedEpochs, h2] at ih ⊢
      exact ih _
    · have h2 : ss ≤ e := by omega
      simp [runBest, h, savedEpochs, h2] at ih ⊢
      rw [ih, max_comm]

theorem flatten_chunksOf {α : Type} (n : Nat) (hn : 0 < n) (l : List α) :
    (chunksOf n l).flatten = l := by
  generalize h : l.length = k
  induction k using Nat.strong_induction_on generalizing l with
  | _ k ih =>
    rw [chunksOf]
    split
    · rename_i hc
      rcases hc with hc | hc
      · omega
      · simp [List.length_eq_zero.mp hc]
    · rename_i hc
      push_neg at hc
      have hlen : (l.drop n).length < k := by
        subst h
        simpa using Nat.sub_lt (Nat.pos_of_ne_zero hc.2) hn
      simp only [List.flatten_cons]
      rw [ih _ hlen _ rfl, List.take_append_drop]

theorem sublist_of_mem_chunksOf {α : Type} {n : Nat} {l b : List α}
    (hb : b ∈ chunksOf n l) : b.Sublist l := by
  generalize h : l.length = k
  induction k using Nat.strong_induction_on generalizing l b with
  | _ k ih =>
    rw [chunksOf] at hb
    split at hb
    · simp at hb
    · rename_i hc
      push_neg at hc
      have hlen : (l.drop n).length < k := by
        subst h
        simpa using Nat.sub_lt (Nat.pos_of_ne_zero hc.2) (Nat.pos_of_ne_zero hc.1)
      rcases List.mem_cons.mp hb with hb | hb
      · subst hb
        exact List.take_sublist n l
      · exact (ih _ hlen hb rfl).trans (List.drop_sublist n l)

theorem chunksOf_map {α β : Type} (n : Nat) (f : α → β) (l : List α) :
    chunksOf n (l.map f) = (chunksOf n l).map (List.map f) := by
  generalize h : l.length = k
  induction k using Nat.strong_induction_on generalizing l with
  | _ k ih =>
    conv_lhs => rw [chunksOf]
    conv_rhs => rw [chunksOf]
    by_cases hc : n = 0 ∨ l.length = 0
    · have hc2 : n = 0 ∨ (l.map f).length = 0 := by simpa using hc
      rw [dif_pos hc2, dif_pos hc]
      simp
    · have hc2 : ¬ (n = 0 ∨ (l.map f).length = 0) := by simpa using hc
      rw [dif_neg hc2, dif_neg hc]
      push_neg at hc
      have hlen : (l.drop n).length < k := by
        subst h
        simpa using Nat.sub_lt (Nat.pos_of_ne_zero hc.2) (Nat.pos_of_ne_zero hc.1)
      rw [← List.map_take, ← List.map_drop, ih _ hlen _ rfl, List.map_cons]

theorem flatten_take {α : Type} (n : Nat) (k : Nat) (ls : List (List α))
    (h : ∀ x ∈ ls, x.length = n) :
    (ls.flatten).take (k * n) = (ls.take k).flatten := by
  induction k generalizing ls with
  | zero => simp
  | succ k ih =>
    cases ls with
    | nil => simp
    | cons a t =>
      have ha : a.length = n := h a (List.mem_cons_self _ _)
      have hk : (k + 1) * n = a.length + k * n := by rw [ha]; ring
      simp only [List.flatten_cons, List.take_succ_cons, hk, List.take_append]
      rw [ih t (fun x hx => h x (List.mem_cons_of_mem _ hx))]

theorem flatten_drop {α : Type} (n : Nat) (k : Nat) (ls : List (List α))
    (h : ∀ x ∈ ls, x.length = n) :
    (ls.flatten).drop (k * n) = (ls.drop k).flatten := by
  induction k generalizing ls with
  | zero => simp
  | succ k ih =>
    cases ls with
    | nil => simp
    | cons a t =>
      have ha : a.length = n := h a (List.mem_cons_self _ _)
      have hk : (k + 1) * n = a.length + k * n := by rw [ha]; ring
      simp only [List.flatten_cons, List.drop_succ_cons, hk, List.drop_append]
      rw [ih t (fun x hx => h x (List.mem_cons_of_mem _ hx))]

theorem length_flatten_const {α : Type} (n : Nat) (ls : List (List α))
    (h : ∀ x ∈ ls, x.length = n) :
    (ls.flatten).length = ls.length * n := by
  induction ls with
  | nil => simp
  | cons a t ih =>
    have ha : a.length = n := h a (List.mem_cons_self _ _)
    have ht := ih (fun x hx => h x (List.mem_cons_of_mem _ hx))
    simp only [List.flatten_cons, List.length_append, List.length_cons, ha, ht]
    ring

theorem chunksOf_flatten {α : Type} (n k : Nat) (hn : 0 < n) (hk : 0 < k)
    (ls : List (List α)) (h : ∀ x ∈ ls, x.length = n) :
    chunksOf (k * n) ls.flatten = (chunksOf k ls).map List.flatten := by
  generalize hL : ls.length = L
  induction L using Nat.strong_induction_on generalizing ls with
  | _ L ih =>
    by_cases hc : k = 0 ∨ ls.length = 0
    · rcases hc with hc | hc
      · omega
      · have : ls = [] := List.length_eq_zero.mp hc
        subst this
        simp [chunksOf]
    · push_neg at hc
      have hflat : (ls.flatten).length = ls.length * n :=
        length_flatten_const n ls h
      have hc2 : ¬ (k * n = 0 ∨ (ls.flatten).length = 0) := by
        push_neg
        constructor
        · positivity
        · rw [hflat]
          exact Nat.mul_ne_zero hc.2 (by omega)
      conv_lhs => rw [chunksOf]
      conv_rhs => rw [chunksOf]
      rw [dif_neg hc2, dif_neg (by push_neg; exact hc)]
      have hlen : (ls.drop k).length < L := by
        subst hL
        simpa using Nat.sub_lt (Nat.pos_of_ne_zero hc.2) hk
      have hdropwf : ∀ x ∈ ls.drop k, x.length = n := fun x hx =>
        h x ((List.drop_sublist k ls).mem hx)
      rw [flatten_take n k ls h, flatten_drop n k ls h, ih _ hlen _ hdropwf rfl]
      simp

theorem rmgsOrder_cons (x : Nat × List Nat) (bl : List (Nat × List Nat)) :
    rmgsOrder (x :: bl) = x.2 ++ rmgsOrder bl := by
  simp [rmgsOrder]

theorem filter_pid_rmgsOrder (data : List Sample) (n : Nat)
    (bl : List (Nat × List Nat))
    (h : ∀ x ∈ bl, x.2.length = n ∧ ∀ i ∈ x.2, pidAt data i = some x.1)
    (hnd : (bl.map Prod.fst).Nodup) (p : Nat) :
    ((rmgsOrder bl).filter (fun i => decide (pidAt data i = some p))).length =
      if p ∈ bl.map Prod.fst then n else 0 := by
  induction bl with
  | nil => simp [rmgsOrder]
  | cons x bl ih =>
    have hx := h x (List.mem_cons_self _ _)
    have hbl : ∀ y ∈ bl, y.2.length = n ∧ ∀ i ∈ y.2, pidAt data i = some y.1 :=
      fun y hy => h y (List.mem_cons_of_mem _ hy)
    rw [List.map_cons, List.nodup_cons] at hnd
    rw [rmgsOrder_cons, List.filter_append, List.length_append]
    by_cases hp : p = x.1
    · have h1 : x.2.filter (fun i => decide (pidAt data i = some p)) = x.2 :=
        List.filter_eq_self.mpr (fun a ha => by simp [hx.2 a ha, hp])
      have h2 : ((rmgsOrder bl).filter
          (fun i => decide (pidAt data i = some p))).length = 0 := by
        rw [ih hbl hnd.2]
        simp [hp, hnd.1]
      rw [h1, h2, hx.1]
      simp [hp]
    · have h1 : x.2.filter (fun i => decide (pidAt data i = some p)) = [] :=
        List.filter_eq_nil_iff.mpr (fun a ha => by
          simp [hx.2 a ha]
          exact fun hc => hp hc.symm)
      rw [h1, ih hbl hnd.2]
      by_cases hm : p ∈ List.map Prod.fst bl <;> simp [hm, hp]

/-- C1: In the joint-training variant, `get_data` builds the merged
training set as the deduplicated union of the source and target training
tuples, creates the target dataset with its identity labels offset by the
number of source training classes (`start_idx = num_classes_source`), and
returns a total class count equal to the sum of the source and target
class counts; consequently (for a well-formed source dataset) no source
and target training tuple share an identity label. -/
theorem claim_c1_joint_merge (raw_source raw_target : Dataset)
    (data_dir : String) (batch_size workers num_instances : Nat)
    (combine_trainval : Bool) (h : raw_source.Wf) :
    (∀ x, x ∈ (get_data_joint raw_source raw_target data_dir batch_size
          workers num_instances combine_trainval).train_loader.dset ↔
        x ∈ trainSetOf (createDataset raw_source 0) combine_trainval ∨
          x ∈ trainSetOf (createDataset raw_target
              (numClassesOf raw_source combine_trainval)) combine_trainval) ∧
    (get_data_joint raw_source raw_target data_dir batch_size workers
        num_instances combine_trainval).train_loader.dset.Nodup ∧
    (get_data_joint raw_source raw_target data_dir batch_size workers
        num_instances combine_trainval).dataset_target =
      createDataset raw_target (numClassesOf raw_source combine_trainval) ∧
    (get_data_joint raw_source raw_target data_dir batch_size workers
        num_instances combine_trainval).num_classes =
      numClassesOf raw_source combine_trainval +
        numClassesOf raw_target combine_trainval ∧
    (∀ s ∈ trainSetOf (get_data_joint raw_source raw_target data_dir
          batch_size workers num_instances combine_trainval).dataset_source
          combine_trainval,
     ∀ t ∈ trainSetOf (get_data_joint raw_source raw_target data_dir
          batch_size workers num_instances combine_trainval).dataset_target
          combine_trainval,
       s.pid ≠ t.pid) := by
  refine ⟨?_, ?_, ?_, ?_, ?_⟩
  · intro x
    simp only [get_data_joint]
    exact mem_dedupUnion _ _ x
  · exact nodup_dedupUnion _ _
  · rfl
  · rfl
  · intro s hs t ht
    have hsrc : s.pid < numClassesOf raw_source combine_trainval := by
      cases combine_trainval with
      | false =>
        simp only [get_data_joint, trainSetOf, createDataset, if_neg,
          Bool.false_eq_true, if_false, List.mem_map, numClassesOf] at hs ⊢
        rcases hs with ⟨s0, hs0, rfl⟩
        simpa [shiftSample] using h.1 s0 hs0
      | true =>
        simp only [get_data_joint, trainSetOf, createDataset, if_true,
          List.mem_map, numClassesOf] at hs ⊢
        rcases hs with ⟨s0, hs0, rfl⟩
        simpa [shiftSample] using h.2 s0 hs0
    have htgt : numClassesOf raw_source combine_trainval ≤ t.pid := by
      cases combine_trainval with
      | false =>
        simp only [get_data_joint, trainSetOf, createDataset,
          Bool.false_eq_true, if_false, List.mem_map, numClassesOf] at ht
        rcases ht with ⟨t0, ht0, rfl⟩
        simp [shiftSample, numClassesOf]
      | true =>
        simp only [get_data_joint, trainSetOf, createDataset, if_true,
          List.mem_map, numClassesOf] at ht
        rcases ht with ⟨t0, ht0, rfl⟩
        simp [shiftSample, numClassesOf]
    omega

/-- Witness for C1: the theorem applied at concrete datasets. -/
theorem claim_c1_joint_merge_witness :
    rawA.Wf ∧
    ((∀ x, x ∈ (get_data_joint rawA rawB "data" 8 2 4 false).train_loader.dset ↔
        x ∈ trainSetOf (createDataset rawA 0) false ∨
          x ∈ trainSetOf (createDataset rawB (numClassesOf rawA false)) false) ∧
     (get_data_joint rawA rawB "data" 8 2 4 false).train_loader.dset.Nodup ∧
     (get_data_joint rawA rawB "data" 8 2 4 false).dataset_target =
       createDataset rawB (numClassesOf rawA false) ∧
     (get_data_joint rawA rawB "data" 8 2 4 false).num_classes =
       numClassesOf rawA false + numClassesOf rawB false ∧
     (∀ s ∈ trainSetOf
          (get_data_joint rawA rawB "data" 8 2 4 false).dataset_source false,
      ∀ t ∈ trainSetOf
          (get_data_joint rawA rawB "data" 8 2 4 false).dataset_target false,
        s.pid ≠ t.pid)) :=
  ⟨by unfold Dataset.Wf; decide, claim_c1_joint_merge rawA rawB "data" 8 2 4 false (by unfold Dataset.Wf; decide)⟩

/-- C2: In both `get_data` variants the training loader is built with a
`RandomMultipleGallerySampler` iff `num_instances > 0` and with
`shuffle` iff no sampler is used; the validation and test loaders are
always built without a sampler and without shuffling. -/
theorem claim_c2_sampler_shuffle_flags (raw raw_source raw_target : Dataset)
    (data_dir : String) (batch_size workers num_instances : Nat)
    (combine_trainval : Bool) :
    ((get_data_single raw batch_size workers num_instances
        combine_trainval).train_loader.sampler.isSome = true ↔
      0 < num_instances) ∧
    ((get_data_single raw batch_size workers num_instances
        combine_trainval).train_loader.shuffle = true ↔
      (get_data_single raw batch_size workers num_instances
        combine_trainval).train_loader.sampler = none) ∧
    (get_data_single raw batch_size workers num_instances
        combine_trainval).val_loader.sampler = none ∧
    (get_data_single raw batch_size workers num_instances
        combine_trainval).val_loader.shuffle = false ∧
    (get_data_single raw batch_size workers num_instances
        combine_trainval).test_loader.sampler = none ∧
    (get_data_single raw batch_size workers num_instances
        combine_trainval).test_loader.shuffle = false ∧
    ((get_data_joint raw_source raw_target data_dir batch_size workers
        num_instances combine_trainval).train_loader.sampler.isSome = true ↔
      0 < num_instances) ∧
    ((get_data_joint raw_source raw_target data_dir batch_size workers
        num_instances combine_trainval).train_loader.shuffle = true ↔
      (get_data_joint raw_source raw_target data_dir batch_size workers
        num_instances combine_trainval).train_loader.sampler = none) ∧
    (get_data_joint raw_source raw_target data_dir batch_size workers
        num_instances combine_trainval).val_loader.sampler = none ∧
    (get_data_joint raw_source raw_target data_dir batch_size workers
        num_instances combine_trainval).val_loader.shuffle = false ∧
    (get_data_joint raw_source raw_target data_dir batch_size workers
        num_instances combine_trainval).test_loader_source.sampler = none ∧
    (get_data_joint raw_source raw_target data_dir batch_size workers
        num_instances combine_trainval).test_loader_source.shuffle = false ∧
    (get_data_joint raw_source raw_target data_dir batch_size workers
        num_instances combine_trainval).test_loader_target.sampler = none ∧
    (get_data_joint raw_source raw_target data_dir batch_size workers
        num_instances combine_trainval).test_loader_target.shuffle = false := by
  by_cases hni : 0 < num_instances <;>
    simp [get_data_single, get_data_joint, hni]

/-- C6: For every dataset, the test loader's underlying sample list holds
exactly the elements of the union of the query and gallery sets, each
exactly once. -/
theorem claim_c6_test_set (raw raw_source raw_target : Dataset)
    (data_dir : String) (batch_size workers num_instances : Nat)
    (combine_trainval : Bool) :
    (∀ x, x ∈ (get_data_single raw batch_size workers num_instances
          combine_trainval).test_loader.dset ↔
        x ∈ raw.query ∨ x ∈ raw.gallery) ∧
    (get_data_single raw batch_size workers num_instances
        combine_trainval).test_loader.dset.Nodup ∧
    (∀ x, x ∈ (get_data_joint raw_source raw_target data_dir batch_size
          workers num_instances combine_trainval).test_loader_source.dset ↔
        x ∈ raw_source.query ∨ x ∈ raw_source.gallery) ∧
    (get_data_joint raw_source raw_target data_dir batch_size workers
        num_instances combine_trainval).test_loader_source.dset.Nodup ∧
    (∀ x, x ∈ (get_data_joint raw_source raw_target data_dir batch_size
          workers num_instances combine_trainval).test_loader_target.dset ↔
        x ∈ raw_target.query ∨ x ∈ raw_target.gallery) ∧
    (get_data_joint raw_source raw_target data_dir batch_size workers
        num_instances combine_trainval).test_loader_target.dset.Nodup := by
  refine ⟨?_, ?_, ?_, ?_, ?_, ?_⟩ <;>
    first
      | exact nodup_dedupUnion _ _
      | (intro x
         simp only [get_data_single, get_data_joint]
         rw [mem_dedupUnion]
         simp [createDataset])

theorem dlBatches_full {α : Type} (bs : Nat) (l b : List α)
    (hb : b ∈ dlBatches bs true l) : b.length = bs := by
  simp only [dlBatches, if_true] at hb
  have := List.of_mem_filter hb
  simpa using this

theorem dlBatches_no_drop {α : Type} (bs : Nat) (hbs : 0 < bs) (l : List α) :
    (dlBatches bs false l).flatten = l := by
  simp only [dlBatches, Bool.false_eq_true, if_false]
  exact flatten_chunksOf bs hbs l

/-- C8: both variants build the training loader with `drop_last`, so
every minibatch it yields has exactly `batch_size` samples, while the
validation and test loaders keep their final partial batch (their batches
flatten back to the full sample list). -/
theorem claim_c8_batch_sizes (raw raw_source raw_target : Dataset)
    (data_dir : String) (batch_size workers num_instances : Nat)
    (combine_trainval : Bool) (h : 0 < batch_size) :
    (get_data_single raw batch_size workers num_instances
        combine_trainval).train_loader.drop_last = true ∧
    (∀ b ∈ ((get_data_single raw batch_size workers num_instances
        combine_trainval).train_loader).batches, b.length = batch_size) ∧
    (get_data_single raw batch_size workers num_instances
        combine_trainval).val_loader.drop_last = false ∧
    ((get_data_single raw batch_size workers num_instances
        combine_trainval).val_loader).batches.flatten =
      (get_data_single raw batch_size workers num_instances
        combine_trainval).val_loader.dset ∧
    (get_data_single raw batch_size workers num_instances
        combine_trainval).test_loader.drop_last = false ∧
    ((get_data_single raw batch_size workers num_instances
        combine_trainval).test_loader).batches.flatten =
      (get_data_single raw batch_size workers num_instances
        combine_trainval).test_loader.dset ∧
    (get_data_joint raw_source raw_target data_dir batch_size workers
        num_instances combine_trainval).train_loader.drop_last = true ∧
    (∀ b ∈ ((get_data_joint raw_source raw_target data_dir batch_size
        workers num_instances combine_trainval).train_loader).batches,
      b.length = batch_size) ∧
    (get_data_joint raw_source raw_target data_dir batch_size workers
        num_instances combine_trainval).val_loader.drop_last = false ∧
    ((get_data_joint raw_source raw_target data_dir batch_size workers
        num_instances combine_trainval).val_loader).batches.flatten =
      (get_data_joint raw_source raw_target data_dir batch_size workers
        num_instances combine_trainval).val_loader.dset ∧
    ((get_data_joint raw_source raw_target data_dir batch_size workers
        num_instances combine_trainval).test_loader_source).batches.flatten =
      (get_data_joint raw_source raw_target data_dir batch_size workers
        num_instances combine_trainval).test_loader_source.dset ∧
    ((get_data_joint raw_source raw_target data_dir batch_size workers
        num_instances combine_trainval).test_loader_target).batches.flatten =
      (get_data_joint raw_source raw_target data_dir batch_size workers
        num_instances combine_trainval).test_loader_target.dset := by
  refine ⟨rfl, ?_, rfl, ?_, rfl, ?_, rfl, ?_, rfl, ?_, ?_, ?_⟩
  · exact fun b hb => dlBatches_full _ _ b hb
  · exact dlBatches_no_drop _ h _
  · exact dlBatches_no_drop _ h _
  · exact fun b hb => dlBatches_full _ _ b hb
  · exact dlBatches_no_drop _ h _
  · exact dlBatches_no_drop _ h _
  · exact dlBatches_no_drop _ h _

/-- Witness for C8 at a concrete dataset and batch size. -/
theorem claim_c8_batch_sizes_witness :
    0 < 2 ∧
    ((get_data_single rawA 2 1 2 false).train_loader.drop_last = true ∧
     (∀ b ∈ ((get_data_single rawA 2 1 2 false).train_loader).batches,
       b.length = 2) ∧
     (get_data_single rawA 2 1 2 false).val_loader.drop_last = false ∧
     ((get_data_single rawA 2 1 2 false).val_loader).batches.flatten =
       (get_data_single rawA 2 1 2 false).val_loader.dset ∧
     (get_data_single rawA 2 1 2 false).test_loader.drop_last = false ∧
     ((get_data_single rawA 2 1 2 false).test_loader).batches.flatten =
       (get_data_single rawA 2 1 2 false).test_loader.dset ∧
     (get_data_joint rawA rawB "data" 2 1 2 false).train_loader.drop_last =
       true ∧
     (∀ b ∈ ((get_data_joint rawA rawB "data" 2 1 2
         false).train_loader).batches, b.length = 2) ∧
     (get_data_joint rawA rawB "data" 2 1 2 false).val_loader.drop_last =
       false ∧
     ((get_data_joint rawA rawB "data" 2 1 2 false).val_loader).batches.flatten =
       (get_data_joint rawA rawB "data" 2 1 2 false).val_loader.dset ∧
     ((get_data_joint rawA rawB "data" 2 1 2
         false).test_loader_source).batches.flatten =
       (get_data_joint rawA rawB "data" 2 1 2 false).test_loader_source.dset ∧
     ((get_data_joint rawA rawB "data" 2 1 2
         false).test_loader_target).batches.flatten =
       (get_data_joint rawA rawB "data" 2 1 2 false).test_loader_target.dset) :=
  ⟨by decide, claim_c8_batch_sizes rawA rawA rawB "data" 2 1 2 false (by decide)⟩

/-- C7: on the spec-modelled `RandomMultipleGallerySampler` output
(per-identity blocks of `num_instances` indices, concatenated), with
`batch_size = k * num_instances`, every minibatch the training loader
yields is the concatenation of `k = batch_size / num_instances` blocks of
pairwise-distinct identities, so each batch holds exactly `k` identities
with exactly `num_instances` images each. -/
theorem claim_c7_sampler_batches (data : List Sample) (n k : Nat)
    (blocks : List (Nat × List Nat)) (hn : 0 < n) (hk : 0 < k)
    (hw : BlocksWf data n blocks) :
    ∀ b ∈ dlBatches (k * n) true (rmgsOrder blocks),
      ∃ bl : List (Nat × List Nat), bl.Sublist blocks ∧ bl.length = k ∧
        b = rmgsOrder bl ∧ (bl.map Prod.fst).Nodup ∧
        ∀ p : Nat,
          (b.filter (fun i => decide (pidAt data i = some p))).length =
            if p ∈ bl.map Prod.fst then n else 0 := by
  intro b hb
  have hlens : ∀ x ∈ blocks.map Prod.snd, x.length = n := by
    intro x hx
    rcases List.mem_map.mp hx with ⟨y, hy, rfl⟩
    exact (hw.2 y hy).1
  simp only [dlBatches, if_true] at hb
  rw [List.mem_filter] at hb
  obtain ⟨hmem, hlen⟩ := hb
  rw [decide_eq_true_eq] at hlen
  rw [show rmgsOrder blocks = (blocks.map Prod.snd).flatten from rfl,
    chunksOf_flatten n k hn hk _ hlens, chunksOf_map, List.map_map] at hmem
  rcases List.mem_map.mp hmem with ⟨bl, hbl, rfl⟩
  have hsub : bl.Sublist blocks := sublist_of_mem_chunksOf hbl
  have hblwf : ∀ x ∈ bl, x.2.length = n ∧ ∀ i ∈ x.2, pidAt data i = some x.1 :=
    fun x hx => hw.2 x (hsub.subset hx)
  have hbl_lens : ∀ x ∈ bl.map Prod.snd, x.length = n := by
    intro x hx
    rcases List.mem_map.mp hx with ⟨y, hy, rfl⟩
    exact (hblwf y hy).1
  have hflatlen : ((Function.comp List.flatten (List.map Prod.snd)) bl).length =
      bl.length * n := by
    simp only [Function.comp_apply]
    rw [length_flatten_const n _ hbl_lens, List.length_map]
  have hklen : bl.length = k := by
    rw [hflatlen] at hlen
    exact Nat.eq_of_mul_eq_mul_right hn hlen
  have hnd : (bl.map Prod.fst).Nodup := (hsub.map Prod.fst).nodup hw.1
  refine ⟨bl, hsub, hklen, rfl, hnd, ?_⟩
  intro p
  exact filter_pid_rmgsOrder data n bl hblwf hnd p

/-- Witness for C7 at a concrete sample list and block list with
`num_instances = 2` and `batch_size = 4`. -/
theorem claim_c7_sampler_batches_witness :
    0 < 2 ∧ BlocksWf sampData 2 sampBlocks ∧
    (∀ b ∈ dlBatches (2 * 2) true (rmgsOrder sampBlocks),
      ∃ bl : List (Nat × List Nat), bl.Sublist sampBlocks ∧ bl.length = 2 ∧
        b = rmgsOrder bl ∧ (bl.map Prod.fst).Nodup ∧
        ∀ p : Nat,
          (b.filter (fun i => decide (pidAt sampData i = some p))).length =
            if p ∈ bl.map Prod.fst then 2 else 0) :=
  ⟨by decide, by unfold BlocksWf; decide,
    claim_c7_sampler_batches sampData 2 2 sampBlocks (by decide) (by decide)
      (by unfold BlocksWf; decide)⟩

/-- C3: over the whole training loop, `best_mAP` ends as the maximum of
its initial value and every validation mAP observed at completed epochs
with `epoch >= start_save`, and the checkpoints saved are exactly, for
each such epoch in order, one with stored epoch `epoch + 1` and the
updated best, marked best iff that epoch's mAP strictly exceeds the
previous best. -/
theorem claim_c3_best_map (step : Nat → Nat → Nat) (mAP : Nat → ℚ)
    (start_save start_epoch epochs : Nat) (w0 : Nat) (b0 : ℚ) :
    (runLoop step mAP start_save (epochRange start_epoch epochs)
        ⟨w0, b0, []⟩).best_mAP =
      (savedEpochs start_save (epochRange start_epoch epochs)).foldl
        (fun b e => max b (mAP e)) b0 ∧
    savedTriples (runLoop step mAP start_save (epochRange start_epoch epochs)
        ⟨w0, b0, []⟩).events =
      ckptSpec mAP (savedEpochs start_save (epochRange start_epoch epochs))
        b0 := by
  rw [runLoop_eq]
  constructor
  · exact runBest_eq_foldl mAP start_save _ b0
  · show savedTriples ([] ++ epochTrace step mAP start_save _ w0 b0) = _
    rw [List.nil_append]
    exact savedTriples_epochTrace step mAP start_save _ w0 b0

/-- C9: an epoch with `epoch < start_save` only adjusts the learning rate
and trains — it leaves `best_mAP` unchanged and appends no validation or
checkpoint event — and across a whole loop run every validation happens at
an epoch `>= start_save` and every saved checkpoint stores `epoch + 1` for
such an epoch. -/
theorem claim_c9_skip_before_start_save (step : Nat → Nat → Nat)
    (mAP : Nat → ℚ) (start_save e : Nat) (s : LoopState)
    (h : e < start_save) :
    (epochBody step mAP start_save s e).best_mAP = s.best_mAP ∧
    (epochBody step mAP start_save s e).events =
      s.events ++ [.adjustLR e, .train e] ∧
    (∀ start_epoch epochs w0 b0 e2,
      Event.validate e2 ∈ (runLoop step mAP start_save
          (epochRange start_epoch epochs) ⟨w0, b0, []⟩).events →
        start_save ≤ e2) ∧
    (∀ start_epoch epochs w0 b0 c ib,
      Event.saveCkpt c ib ∈ (runLoop step mAP start_save
          (epochRange start_epoch epochs) ⟨w0, b0, []⟩).events →
        ∃ e2, start_save ≤ e2 ∧ c.epoch = e2 + 1) := by
  refine ⟨by simp [epochBody, h], by simp [epochBody, h], ?_, ?_⟩
  · intro start_epoch epochs w0 b0 e2 hm
    rw [runLoop_eq, show (LoopState.mk w0 b0 []).events = [] from rfl,
      List.nil_append] at hm
    exact (validate_mem_epochTrace step mAP start_save _ _ _ _ hm).1
  · intro start_epoch epochs w0 b0 c ib hm
    rw [runLoop_eq, show (LoopState.mk w0 b0 []).events = [] from rfl,
      List.nil_append] at hm
    rcases saveCkpt_mem_epochTrace step mAP start_save _ _ _ _ _ hm with
      ⟨e2, _, h1, h2⟩
    exact ⟨e2, h1, h2⟩

/-- Witness for C9 at a concrete epoch below `start_save`. -/
theorem claim_c9_skip_before_start_save_witness :
    0 < 1 ∧
    ((epochBody (fun _ w => w + 1) (fun _ => (1 : ℚ)) 1
        ⟨0, 0, []⟩ 0).best_mAP = (LoopState.mk 0 0 []).best_mAP ∧
     (epochBody (fun _ w => w + 1) (fun _ => (1 : ℚ)) 1
        ⟨0, 0, []⟩ 0).events =
       (LoopState.mk 0 0 []).events ++ [.adjustLR 0, .train 0] ∧
     (∀ start_epoch epochs w0 b0 e2,
       Event.validate e2 ∈ (runLoop (fun _ w => w + 1) (fun _ => (1 : ℚ)) 1
           (epochRange start_epoch epochs) ⟨w0, b0, []⟩).events →
         1 ≤ e2) ∧
     (∀ start_epoch epochs w0 b0 c ib,
       Event.saveCkpt c ib ∈ (runLoop (fun _ w => w + 1) (fun _ => (1 : ℚ)) 1
           (epochRange start_epoch epochs) ⟨w0, b0, []⟩).events →
         ∃ e2, 1 ≤ e2 ∧ c.epoch = e2 + 1)) :=
  ⟨by decide,
    claim_c9_skip_before_start_save (fun _ w => w + 1) (fun _ => (1 : ℚ)) 1 0
      ⟨0, 0, []⟩ (by decide)⟩

/-- C5: without `--resume` the loop starts from weights `init_w`,
`start_epoch = 0` and `best_mAP = 0`; with `--resume` the model state,
`start_epoch` and `best_mAP` come from the loaded checkpoint; the loop
then trains exactly the epochs `start_epoch, ..., epochs - 1`, in
increasing order. -/
theorem claim_c5_resume (init_w : Nat) (r : Option Ckpt)
    (step : Nat → Nat → Nat) (mAP : Nat → ℚ) (start_save epochs : Nat) :
    resumeInit init_w none = (init_w, 0, 0) ∧
    (∀ c, resumeInit init_w (some c) = (c.state_dict, c.epoch, c.best_mAP)) ∧
    trainedEpochs (runLoop step mAP start_save
        (epochRange (resumeInit init_w r).2.1 epochs)
        ⟨(resumeInit init_w r).1, (resumeInit init_w r).2.2, []⟩).events =
      epochRange (resumeInit init_w r).2.1 epochs ∧
    (∀ e, e ∈ epochRange (resumeInit init_w r).2.1 epochs ↔
      (resumeInit init_w r).2.1 ≤ e ∧ e < epochs) ∧
    List.Pairwise (· < ·) (epochRange (resumeInit init_w r).2.1 epochs) := by
  refine ⟨rfl, fun c => rfl, ?_, ?_, ?_⟩
  · rw [runLoop_eq,
      show (LoopState.mk (resumeInit init_w r).1 (resumeInit init_w r).2.2
        []).events = [] from rfl, List.nil_append]
    exact trainedEpochs_epochTrace step mAP start_save _ _ _
  · intro e
    rw [epochRange, List.mem_range'_1]
    omega
  · exact List.pairwise_lt_range' _ _

/-- C4: when not run in `--evaluate` mode, after the training loop both
variants load the model weights from `model_best.pth.tar` in the logs
directory and evaluate the query set against the gallery set (deriving
CMC curves per the spec's evaluator); the joint variant does so for both
the source and the target domain test sets. -/
theorem claim_c4_final_test (raw raw_source raw_target : Dataset)
    (data_dir logs_dir : String) (batch_size workers num_instances : Nat)
    (combine_trainval : Bool) (resume : Option Ckpt) (init_w : Nat)
    (step : Nat → Nat → Nat) (mAP : Nat → ℚ) (start_save epochs : Nat) :
    main_single raw batch_size workers num_instances combine_trainval false
        logs_dir resume init_w step mAP start_save epochs =
      (runLoop step mAP start_save
          (epochRange (resumeInit init_w resume).2.1 epochs)
          ⟨(resumeInit init_w resume).1, (resumeInit init_w resume).2.2,
            []⟩).events ++
        [.loadCkpt (logs_dir ++ "/model_best.pth.tar"),
         .evalQG raw.query raw.gallery] ∧
    main_joint raw_source raw_target data_dir batch_size workers
        num_instances combine_trainval false logs_dir resume init_w step mAP
        start_save epochs =
      (runLoop step mAP start_save
          (epochRange (resumeInit init_w resume).2.1 epochs)
          ⟨(resumeInit init_w resume).1, (resumeInit init_w resume).2.2,
            []⟩).events ++
        [.loadCkpt (logs_dir ++ "/model_best.pth.tar"),
         .evalQG raw_source.query raw_source.gallery,
         .evalQG raw_target.query raw_target.gallery] :=
  ⟨rfl, rfl⟩

/-- C10: `adjust_lr` sets the backbone group's rate to
`args.lr * 0.1 ^ (epoch / step_size)` and the new-parameter group's rate
to ten times that; for a nonnegative `args.lr` the rate is non-increasing
in the epoch and drops by a factor of ten every `step_size` epochs. -/
theorem claim_c10_adjust_lr (lr : ℚ) (s : Nat) (hs : 0 < s)
    (hlr : 0 ≤ lr) :
    (∀ e, (adjust_lr lr s e param_groups).map ParamGroup.lr =
      [lr * (1 / 10 : ℚ) ^ (e / s), 10 * (lr * (1 / 10 : ℚ) ^ (e / s))]) ∧
    (∀ e₁ e₂, e₁ ≤ e₂ →
      lr * (1 / 10 : ℚ) ^ (e₂ / s) ≤ lr * (1 / 10 : ℚ) ^ (e₁ / s) ∧
      10 * (lr * (1 / 10 : ℚ) ^ (e₂ / s)) ≤
        10 * (lr * (1 / 10 : ℚ) ^ (e₁ / s))) ∧
    (∀ e, lr * (1 / 10 : ℚ) ^ ((e + s) / s) * 10 =
      lr * (1 / 10 : ℚ) ^ (e / s)) := by
  refine ⟨?_, ?_, ?_⟩
  · intro e
    simp only [adjust_lr, param_groups, List.map_cons, List.map_nil,
      List.cons.injEq, and_true]
    constructor <;> ring
  · intro e1 e2 h12
    have hpow : (1 / 10 : ℚ) ^ (e2 / s) ≤ (1 / 10 : ℚ) ^ (e1 / s) :=
      pow_le_pow_of_le_one (by norm_num) (by norm_num)
        (Nat.div_le_div_right h12)
    have h1 := mul_le_mul_of_nonneg_left hpow hlr
    exact ⟨h1, by nlinarith⟩
  · intro e
    rw [Nat.add_div_right _ hs, pow_succ]
    ring

/-- Witness for C10 at `lr = 1`, `step_size = 2`. -/
theorem claim_c10_adjust_lr_witness :
    0 < 2 ∧ (0 : ℚ) ≤ 1 ∧
    ((∀ e, (adjust_lr 1 2 e param_groups).map ParamGroup.lr =
      [1 * (1 / 10 : ℚ) ^ (e / 2), 10 * (1 * (1 / 10 : ℚ) ^ (e / 2))]) ∧
     (∀ e₁ e₂, e₁ ≤ e₂ →
       1 * (1 / 10 : ℚ) ^ (e₂ / 2) ≤ 1 * (1 / 10 : ℚ) ^ (e₁ / 2) ∧
       10 * (1 * (1 / 10 : ℚ) ^ (e₂ / 2)) ≤
         10 * (1 * (1 / 10 : ℚ) ^ (e₁ / 2))) ∧
     (∀ e, 1 * (1 / 10 : ℚ) ^ ((e + 2) / 2) * 10 =
       1 * (1 / 10 : ℚ) ^ (e / 2))) :=
  ⟨by decide, by norm_num, claim_c10_adjust_lr 1 2 (by decide) (by norm_num)⟩

end OpenReid
